import Mathlib

/-!
Shallow embedding of the Flux LoRA Slack bot repository
(`src/replicate_client.py`, `src/train_lora.py`, `src/slack_bot.py`) and
proofs of the frozen claims about it.

Network I/O, the filesystem and time are modelled as oracles: an HTTP call
is a value of `HttpOutcome` supplied by the environment, the poll loops are
driven by a `fetch : Nat → _` oracle giving the response to the k-th status
fetch, and the unbounded `while True` loops are run on explicit fuel, with
`none` meaning the loop is still running after that many iterations.
-/

deriving instance DecidableEq for Except

namespace FluxBot

/-! ### Statuses and terminal-state predicate

`replicate_client.py` tests `status in {"succeeded", "failed", "canceled"}`
where `status = record.get("status")` may be absent (`None`).
-/

/-- Membership test `status in {"succeeded", "failed", "canceled"}` applied
to the possibly-missing result of `record.get("status")`. -/
def isTerminal : Option String → Bool
  | some s => s == "succeeded" || s == "failed" || s == "canceled"
  | none => false

/-! ### HTTP layer: transport errors, responses, `_check`

An `httpx` call either raises `httpx.RequestError` at the transport level or
yields a response carrying a status code, a text body and a parsed JSON
body.  `ReplicateClient._check` raises
`ReplicateError(f"{response.status_code} {response.text}")` when
`status_code >= 400` and returns the parsed JSON otherwise.
-/

/-- Outcome of one `httpx` request: a transport failure
(`httpx.RequestError`, identified by an opaque code) or a server response
with status code, text and parsed body of type `β`. -/
inductive HttpOutcome (β : Type) where
  | transportErr : Nat → HttpOutcome β
  | response : Nat → String → β → HttpOutcome β
deriving DecidableEq

/-- Python-level exceptions visible to callers of the client:
`httpx.RequestError` (transport) and `ReplicateError` (application). -/
inductive PyErr where
  | requestError : Nat → PyErr
  | replicateError : String → PyErr
deriving DecidableEq

/-- Message built by `_check`: `f"{response.status_code} {response.text}"`. -/
def checkMsg (code : Nat) (text : String) : String :=
  toString code ++ " " ++ text

/-- One request followed by `ReplicateClient._check`: a transport error
propagates as `httpx.RequestError`; a response with `status_code >= 400`
raises `ReplicateError`; otherwise the parsed body is returned. -/
def check {β : Type} : HttpOutcome β → Except PyErr β
  | .transportErr e => .error (.requestError e)
  | .response code text body =>
      if code ≥ 400 then .error (.replicateError (checkMsg code text))
      else .ok body

/-- Classifier used by the tenacity decorator
`retry_if_exception_type(httpx.RequestError)`. -/
def isTransportErr : PyErr → Bool
  | .requestError _ => true
  | .replicateError _ => false

/-! ### Prediction records and `run_inference`

`run_inference` POSTs `/predictions`, `_check`s the response, and when the
immediate status is not terminal calls `poll_prediction` on the returned
`id`.  The whole method body sits under
`@retry(reraise=True, stop=stop_after_attempt(3),
wait=wait_exponential(multiplier=1, min=2, max=10),
retry=retry_if_exception_type(httpx.RequestError))`.
-/

/-- Parsed body of a `/predictions` response: the fields `run_inference`
and `poll_prediction` read (`id`, `get("status")`). -/
structure PredRec where
  id : String
  status : Option String
deriving DecidableEq

/-- Loop body count: `pollPredictionE fetch k fuel` runs the
`poll_prediction` `while True` loop starting at the k-th status fetch, with
`fuel` iterations allowed.  Returns `none` while still looping, otherwise
the raised error or the first terminal record, paired with the total number
of status fetches issued (absolute: fetches `0..n-1`). -/
def pollPredictionE (fetch : Nat → HttpOutcome PredRec) :
    Nat → Nat → Option (Except PyErr PredRec × Nat)
  | _, 0 => none
  | k, fuel + 1 =>
      match check (fetch k) with
      | .error e => some (.error e, k + 1)
      | .ok p =>
          if isTerminal p.status then some (.ok p, k + 1)
          else pollPredictionE fetch (k + 1) fuel

/-- One execution of the `run_inference` body (one tenacity attempt):
submit, `_check`, and when the immediate status is not terminal run the
poll loop.  The returned `Nat` is the number of poll fetches issued. -/
def runInferenceBody (submit : HttpOutcome PredRec)
    (fetch : Nat → HttpOutcome PredRec) (fuel : Nat) :
    Option (Except PyErr PredRec × Nat) :=
  match check submit with
  | .error e => some (.error e, 0)
  | .ok data =>
      if isTerminal data.status then some (.ok data, 0)
      else pollPredictionE fetch 0 fuel

/-- Environment of one `run_inference` call: `submit a` is the HTTP outcome
of the `/predictions` POST of attempt `a` (1-based) and `fetch a k` the
outcome of the k-th status fetch within attempt `a`. -/
structure InfEnv where
  submit : Nat → HttpOutcome PredRec
  fetch : Nat → Nat → HttpOutcome PredRec

/-- The tenacity loop: run the body at attempt `a` with `r` retries left
(`stop_after_attempt(3)` means starting from `a = 1`, `r = 2`).  A
transport error consumes a retry; any other outcome returns.  The result
carries the attempt number that produced it (= number of submissions
issued) and that attempt's poll-fetch count. -/
def retryAttempts (env : InfEnv) (fuel : Nat) :
    Nat → Nat → Option (Except PyErr PredRec × Nat × Nat)
  | a, r =>
      match runInferenceBody (env.submit a) (env.fetch a) fuel with
      | none => none
      | some (.ok p, n) => some (.ok p, a, n)
      | some (.error e, n) =>
          if isTransportErr e then
            match r with
            | 0 => some (.error e, a, n)
            | r' + 1 => retryAttempts env fuel (a + 1) r'
          else some (.error e, a, n)

/-- Definition of `run_inference` under its tenacity decorator: up to 3 attempts, retry
only on `httpx.RequestError`, `reraise=True`. -/
def runInference (env : InfEnv) (fuel : Nat) :
    Option (Except PyErr PredRec × Nat × Nat) :=
  retryAttempts env fuel 1 2

/-! ### The `while True` poll loops of `poll_training` / `poll_prediction`

Both loops fetch the record, return it when its status is terminal, and
otherwise `time.sleep(interval_seconds)` and go round again.  We record the
observable events (status fetches and sleeps) in a trace; the record type
and the interval type are parameters because `poll_training` polls training
records every 30 (int) seconds and `poll_prediction` polls prediction
records every 2.0 (float) seconds.
-/

/-- Observable event of a poll loop: the k-th status fetch, or a
`time.sleep` of the given interval. -/
inductive PollEv (ι : Type) where
  | fetchEv : Nat → PollEv ι
  | sleepEv : ι → PollEv ι
deriving DecidableEq

/-- True exactly on sleep events. -/
def PollEv.isSleep {ι : Type} : PollEv ι → Bool
  | .sleepEv _ => true
  | .fetchEv _ => false

/-- Body of `poll_training` / `poll_prediction`: starting at the k-th
fetch with `fuel` iterations allowed, fetch, stop on a terminal status,
otherwise sleep and continue.  Returns the event trace and the terminal
record (`none` when the loop is still running after `fuel` iterations). -/
def pollLoopTrace {β ι : Type} (statusOf : β → Option String)
    (fetch : Nat → β) (interval : ι) : Nat → Nat → List (PollEv ι) × Option β
  | _, 0 => ([], none)
  | k, fuel + 1 =>
      let record := fetch k
      if isTerminal (statusOf record) then ([.fetchEv k], some record)
      else
        let rest := pollLoopTrace statusOf fetch interval (k + 1) fuel
        (.fetchEv k :: .sleepEv interval :: rest.1, rest.2)

/-- Fields of a training record read by `poll_training` and
`train_lora.main`: `get("status")` and `["output"]["version"]` (the latter
`none` when `output` or `output["version"]` is missing). -/
structure TrainingRec where
  status : Option String
  outputVersion : Option String
deriving DecidableEq

/-- Model of `poll_training(training_id, interval_seconds=30)` driven by the oracle
`fetch` giving the k-th `get_training` response. -/
def pollTraining (fetch : Nat → TrainingRec) (fuel : Nat)
    (interval_seconds : Int := 30) : List (PollEv Int) × Option TrainingRec :=
  pollLoopTrace TrainingRec.status fetch interval_seconds 0 fuel

/-- Model of `poll_prediction(prediction_id, interval_seconds=2.0)` driven by the
oracle `fetch` giving the k-th `get_prediction` response. -/
def pollPrediction (fetch : Nat → PredRec) (fuel : Nat)
    (interval_seconds : ℚ := 2) : List (PollEv ℚ) × Option PredRec :=
  pollLoopTrace PredRec.status fetch interval_seconds 0 fuel

/-- Modelled from the spec words "repeatedly fetches status, sleeping
`intervalSeconds` between attempts": the trace `fetch k, sleep, fetch k+1,
sleep, …, fetch (k+m)` with m sleeps and no sleep after the final fetch,
to be compared with the trace the source loop produces. -/
def idealPollTrace {ι : Type} (interval : ι) : Nat → Nat → List (PollEv ι)
  | k, 0 => [.fetchEv k]
  | k, m + 1 => .fetchEv k :: .sleepEv interval :: idealPollTrace interval (k + 1) m

/-! ### The inference input payload (`run_inference` lines 102–114)

`run_inference` builds
`{"prompt": …, "negative_prompt": …, "num_outputs": …, "guidance": …,
"seed": …, "aspect_ratio": …}` and then drops every `None` value:
`{k: v for k, v in payload["input"].items() if v is not None}`.
Python values are modelled by `PyVal` (floats stand in as rationals, which
is sound here because the payload only carries them through). -/

/-- Python value in the inference input dict: `None`, a string, an int or
a float literal (modelled as a rational). -/
inductive PyVal where
  | vnone : PyVal
  | vstr : String → PyVal
  | vint : Int → PyVal
  | vnum : ℚ → PyVal
deriving DecidableEq

/-- The Python test `v is None`. -/
def PyVal.isNone : PyVal → Bool
  | .vnone => true
  | _ => false

/-- Embeds an optional argument: Python `None` becomes `PyVal.vnone`. -/
def optVal {α : Type} (f : α → PyVal) : Option α → PyVal
  | some x => f x
  | none => .vnone

/-- The literal input dict of `run_inference` before the `None` filter, in
source order. -/
def inferenceInputRaw (prompt : String) (negative_prompt : PyVal)
    (num_outputs : PyVal) (guidance : PyVal) (seed : PyVal)
    (aspect_ratio : PyVal) : List (String × PyVal) :=
  [("prompt", .vstr prompt), ("negative_prompt", negative_prompt),
   ("num_outputs", num_outputs), ("guidance", guidance), ("seed", seed),
   ("aspect_ratio", aspect_ratio)]

/-- The serialized `payload["input"]`: the raw dict with every `None` value
removed (`if v is not None`). -/
def inferenceInputPayload (prompt : String) (negative_prompt : PyVal)
    (num_outputs : PyVal) (guidance : PyVal) (seed : PyVal)
    (aspect_ratio : PyVal) : List (String × PyVal) :=
  (inferenceInputRaw prompt negative_prompt num_outputs guidance seed
    aspect_ratio).filter (fun kv => !kv.2.isNone)

/-! ### `upload_dataset` (lines 38–47) -/

/-- Body of a `/files` response: the `upload_url` field read by
`upload_dataset`. -/
structure FilesBody where
  upload_url : String
deriving DecidableEq

/-- Result of `upload_dataset`: `FileNotFoundError`, a propagated HTTP
error (`httpx.RequestError` or `ReplicateError` from `_check`), or the
returned `data["upload_url"]`. -/
inductive UploadRes where
  | fileNotFoundErr : UploadRes
  | httpErr : PyErr → UploadRes
  | ok : String → UploadRes
deriving DecidableEq

/-- Model of `upload_dataset(archive_path)`: raise `FileNotFoundError` when the
path does not exist, otherwise POST `/files` once, `_check` the response
and return `data["upload_url"]`.  The `Nat` counts POST requests issued. -/
def uploadDataset (pathExists : Bool) (post : HttpOutcome FilesBody) :
    UploadRes × Nat :=
  if !pathExists then (.fileNotFoundErr, 0)
  else
    match check post with
    | .error e => (.httpErr e, 1)
    | .ok body => (.ok body.upload_url, 1)

/-! ### `zip_dataset` (lines 124–135)

The filesystem under `source_dir` is a finite tree; path components are
lists of characters (so the host separator conversion performed by
`zipfile` — `arcname.replace(os.sep, "/")`, a single-character
replacement — is an honest character map).  `source_dir.rglob("*")`
enumerates every path under the directory; `zip_dataset` writes an entry
for each one with `path.is_file()`, named `path.relative_to(source_dir)`.
-/

mutual

/-- A filesystem node: a regular file, or a directory with a sequence of
named children (`FsEntries`). -/
inductive FsTree where
  | file : FsTree
  | dir : FsEntries → FsTree

/-- The named children of a directory, as a bespoke list so that the
directory walk recurses structurally. -/
inductive FsEntries where
  | nil : FsEntries
  | cons : List Char → FsTree → FsEntries → FsEntries

end

/-- Relative paths (as component lists) of the regular files below a
directory with the given entries, i.e. `rglob("*")` filtered by
`is_file()` and made relative to the root — directories themselves
contribute nothing. -/
def rglobEntries : FsEntries → List (List (List Char))
  | .nil => []
  | .cons nm .file rest => [nm] :: rglobEntries rest
  | .cons nm (.dir es) rest =>
      (rglobEntries es).map (fun rel => nm :: rel) ++ rglobEntries rest

/-- Specification-side membership relation: `rel` is the relative path of
a regular file somewhere below a directory with the given entries. -/
inductive IsFileAt : FsEntries → List (List Char) → Prop
  | here {nm : List Char} {rest : FsEntries} :
      IsFileAt (.cons nm .file rest) [nm]
  | inSubdir {nm : List Char} {es rest : FsEntries} {rel : List (List Char)} :
      IsFileAt es rel → IsFileAt (.cons nm (.dir es) rest) (nm :: rel)
  | inRest {nm : List Char} {t : FsTree} {rest : FsEntries}
      {rel : List (List Char)} :
      IsFileAt rest rel → IsFileAt (.cons nm t rest) rel

/-- Rendering by `str()` of a multi-component relative path: components joined by the
separator character. -/
def joinChars (sep : Char) : List (List Char) → List Char
  | [] => []
  | [c] => c
  | c :: cs => c ++ sep :: joinChars sep cs

/-- The single-character replacement `arcname.replace(os.sep, "/")`
performed by `zipfile.ZipInfo.from_file`. -/
def sepToSlash (sep : Char) : List Char → List Char :=
  List.map (fun c => if c = sep then '/' else c)

/-- Archive entry name for one relative path: the host-convention string
with every separator turned into a forward slash. -/
def arcname (sep : Char) (rel : List (List Char)) : List Char :=
  sepToSlash sep (joinChars sep rel)

/-- Result of `zip_dataset`: `NotADirectoryError`, or the archive written
with the given entry names. -/
inductive ZipRes where
  | notADirectoryErr : ZipRes
  | ok : List (List Char) → ZipRes
deriving DecidableEq

/-- Model of `zip_dataset(source_dir, archive_path)`: raise `NotADirectoryError`
when `source_dir.is_dir()` is false (missing path or regular file),
otherwise create the archive and write one entry per regular file.  The
source path is `none` when it does not exist; the `Bool` records whether
the destination archive was opened (i.e. created or truncated). -/
def zipDataset (src : Option FsTree) (sep : Char) : ZipRes × Bool :=
  match src with
  | some (.dir es) => (.ok ((rglobEntries es).map (arcname sep)), true)
  | _ => (.notADirectoryErr, false)

/-! ### `train_lora.main` after polling (lines 57–66)

After `poll_training` returns, `main` reads `final_state["status"]`,
raises `RuntimeError` unless it is `"succeeded"`, then reads
`final_state["output"]["version"]` and writes
`json.dumps({"lora_version": lora_version})` to the output path.
-/

/-- Exception raised by the tail of `train_lora.main`: the
`RuntimeError("Training failed: …")` carrying the final record, or a
`KeyError` from a missing `status` / `output` / `version` field. -/
inductive TrainErr where
  | trainingFailed : TrainingRec → TrainErr
  | keyError : TrainErr

/-- Tail of `train_lora.main` applied to the polled record: `.ok m` means
the output JSON file was written with object `m`; `.error` means an
exception was raised and no file was written. -/
def trainFinalize (final : TrainingRec) :
    Except TrainErr (List (String × String)) :=
  match final.status with
  | none => .error .keyError
  | some st =>
      if st ≠ "succeeded" then .error (.trainingFailed final)
      else
        match final.outputVersion with
        | none => .error .keyError
        | some v => .ok [("lora_version", v)]

/-! ### `slack_bot.handle_message` (lines 134–162)

The handler inspects `event.get("bot_id")` and `event.get("subtype")`
with Python truthiness (absent key, `None` and `""` are all falsy) and
returns at once when either is truthy; otherwise it looks for the bot
mention or the literal `"LoRA Model"` in the text, replies and spawns a
`generate_and_reply` thread.  Replies and job submissions are recorded as
`BotAction`s.
-/

/-- Fields of a Slack message event read by `handle_message`; `none`
stands for an absent key (or a `None` value, which `event.get` returns
unchanged). -/
structure MsgEvent where
  bot_id : Option String
  subtype : Option String
  text : Option String
  channel : Option String
  ts : Option String
deriving DecidableEq

/-- Python truthiness of `event.get(key)` for a string-valued key: absent
and empty are falsy. -/
def truthyStr : Option String → Bool
  | none => false
  | some s => !(s == "")

/-- The handler read `text = event.get("text", "") or ""`. -/
def textOf (e : MsgEvent) : String :=
  match e.text with
  | some t => t
  | none => ""

/-- The Python substring test `pat in t` (for a nonempty pattern). -/
def containsSub (t pat : String) : Bool :=
  (t.splitOn pat).length != 1

/-- The mention literal `f"<@{BOT_USER_ID}>"`. -/
def mentionOf (botUserId : String) : String :=
  "<@" ++ botUserId ++ ">"

/-- Externally visible action of the message handler: the help reply sent
for an empty prompt, the confirmation reply, or the background inference
job spawned for the prompt. -/
inductive BotAction where
  | postHelp : BotAction
  | postWorking : String → BotAction
  | submitJob : String → BotAction
deriving DecidableEq

/-- Model of `handle_message`: skip events with a truthy `bot_id` or `subtype`;
otherwise, when the text mentions the bot or contains `"LoRA Model"`,
strip both markers, trim, and either ask for a prompt or confirm and
spawn the inference job. -/
def handleMessage (botUserId : String) (e : MsgEvent) : List BotAction :=
  if truthyStr e.bot_id || truthyStr e.subtype then []
  else
    let text := textOf e
    if containsSub text (mentionOf botUserId) || containsSub text "LoRA Model" then
      let prompt :=
        ((text.replace (mentionOf botUserId) "").replace "LoRA Model" "").trim
      if prompt == "" then [.postHelp]
      else [.postWorking prompt, .submitJob prompt]
    else []

/-! ## Poll-loop lemmas -/

/-- When the first terminal status appears at fetch `k + m`, the loop
produces exactly the fetch/sleep/…/fetch trace and returns that record. -/
theorem pollLoopTrace_first_terminal {β ι : Type} (statusOf : β → Option String)
    (fetch : Nat → β) (interval : ι) :
    ∀ (m k fuel : Nat), m < fuel →
      isTerminal (statusOf (fetch (k + m))) = true →
      (∀ j, j < m → isTerminal (statusOf (fetch (k + j))) = false) →
      pollLoopTrace statusOf fetch interval k fuel
        = (idealPollTrace interval k m, some (fetch (k + m))) := by
  intro m
  induction m with
  | zero =>
      intro k fuel hfuel hterm _
      match fuel, hfuel with
      | f + 1, _ =>
        simp only [Nat.add_zero] at hterm
        simp [pollLoopTrace, idealPollTrace, hterm]
  | succ m ih =>
      intro k fuel hfuel hterm hnon
      match fuel, hfuel with
      | f + 1, hfuel =>
        have hk : isTerminal (statusOf (fetch k)) = false := by
          have := hnon 0 (Nat.succ_pos m)
          simpa using this
        have hrec := ih (k + 1) f (by omega)
          (by have : k + 1 + m = k + (m + 1) := by omega
              rw [this]; exact hterm)
          (by intro j hj
              have : k + 1 + j = k + (j + 1) := by omega
              rw [this]; exact hnon (j + 1) (by omega))
        rw [show k + 1 + m = k + (m + 1) from by omega] at hrec
        simp [pollLoopTrace, hk, hrec, idealPollTrace]

/-- When no fetch ever returns a terminal status the loop returns nothing,
however much fuel it is given. -/
theorem pollLoopTrace_no_terminal {β ι : Type} (statusOf : β → Option String)
    (fetch : Nat → β) (interval : ι)
    (h : ∀ j, isTerminal (statusOf (fetch j)) = false) :
    ∀ fuel k, (pollLoopTrace statusOf fetch interval k fuel).2 = none := by
  intro fuel
  induction fuel with
  | zero => intro k; simp [pollLoopTrace]
  | succ f ih =>
      intro k
      simp [pollLoopTrace, h k, ih (k + 1)]

/-- The ideal trace contains exactly `m` sleep events. -/
theorem idealPollTrace_sleep_count {ι : Type} (interval : ι) :
    ∀ (m k : Nat),
      (idealPollTrace interval k m).countP (fun ev => PollEv.isSleep ev) = m := by
  intro m
  induction m with
  | zero => intro k; simp [idealPollTrace, List.countP_cons, PollEv.isSleep]
  | succ m ih =>
      intro k
      simp only [idealPollTrace]
      rw [List.countP_cons, List.countP_cons, ih (k + 1)]
      simp [PollEv.isSleep]

/-- The ideal trace ends with the terminal fetch: no sleep follows it. -/
theorem idealPollTrace_getLast {ι : Type} (interval : ι) :
    ∀ (m k : Nat),
      (idealPollTrace interval k m).getLast? = some (.fetchEv (k + m)) := by
  intro m
  induction m with
  | zero => intro k; simp [idealPollTrace]
  | succ m ih =>
      intro k
      obtain ⟨x, xs, hx⟩ : ∃ x xs, idealPollTrace interval (k + 1) m = x :: xs := by
        cases m <;> exact ⟨_, _, rfl⟩
      have h := ih (k + 1)
      rw [hx] at h
      simp only [idealPollTrace, hx]
      rw [List.getLast?_cons_cons, List.getLast?_cons_cons, h]
      congr 2
      omega

/-- Every sleep event in the ideal trace sleeps for the loop interval. -/
theorem idealPollTrace_sleep_interval {ι : Type} (interval : ι) :
    ∀ (m k : Nat) (ev : PollEv ι), ev ∈ idealPollTrace interval k m →
      ev.isSleep = true → ev = .sleepEv interval := by
  intro m
  induction m with
  | zero =>
      intro k ev hmem hsleep
      simp [idealPollTrace] at hmem
      subst hmem
      simp [PollEv.isSleep] at hsleep
  | succ m ih =>
      intro k ev hmem hsleep
      simp only [idealPollTrace, List.mem_cons] at hmem
      rcases hmem with h | h | h
      · subst h; simp [PollEv.isSleep] at hsleep
      · exact h
      · exact ih (k + 1) ev h hsleep

/-- C5: `poll_training` and `poll_prediction` repeatedly fetch the job
status, sleep `interval_seconds` between consecutive fetches and never
after the fetch that observes a terminal status, return the first fetched
record whose status is in `{succeeded, failed, canceled}`, and impose no
attempt cap or timeout: on an everywhere-non-terminal fetch sequence the
loop never returns, whatever fuel it is granted. -/
theorem poll_until_terminal_spec
    (ftr : Nat → TrainingRec) (fpr : Nat → PredRec) (m fuelT fuelP : Nat)
    (htr : isTerminal (ftr m).status = true)
    (htr' : ∀ j, j < m → isTerminal (ftr j).status = false)
    (hfT : m < fuelT)
    (hpr : isTerminal (fpr m).status = true)
    (hpr' : ∀ j, j < m → isTerminal (fpr j).status = false)
    (hfP : m < fuelP) :
    pollTraining ftr fuelT 30 = (idealPollTrace (30 : Int) 0 m, some (ftr m))
    ∧ pollPrediction fpr fuelP 2 = (idealPollTrace (2 : ℚ) 0 m, some (fpr m))
    ∧ (idealPollTrace (30 : Int) 0 m).countP (fun ev => PollEv.isSleep ev) = m
    ∧ (idealPollTrace (30 : Int) 0 m).getLast? = some (.fetchEv m)
    ∧ (∀ ev ∈ idealPollTrace (30 : Int) 0 m, ev.isSleep = true →
        ev = .sleepEv 30)
    ∧ (∀ ev ∈ idealPollTrace (2 : ℚ) 0 m, ev.isSleep = true →
        ev = .sleepEv 2)
    ∧ (∀ g : Nat → TrainingRec, (∀ j, isTerminal (g j).status = false) →
        ∀ fuel, (pollTraining g fuel 30).2 = none)
    ∧ (∀ g : Nat → PredRec, (∀ j, isTerminal (g j).status = false) →
        ∀ fuel, (pollPrediction g fuel 2).2 = none) := by
  refine ⟨?_, ?_, idealPollTrace_sleep_count _ _ _, ?_, ?_, ?_, ?_, ?_⟩
  · have h := pollLoopTrace_first_terminal TrainingRec.status ftr (30 : Int)
      m 0 fuelT hfT (by simpa using htr) (by simpa using htr')
    simpa [pollTraining] using h
  · have h := pollLoopTrace_first_terminal PredRec.status fpr (2 : ℚ)
      m 0 fuelP hfP (by simpa using hpr) (by simpa using hpr')
    simpa [pollPrediction] using h
  · simpa using idealPollTrace_getLast (30 : Int) m 0
  · exact fun ev hmem hs => idealPollTrace_sleep_interval (30 : Int) m 0 ev hmem hs
  · exact fun ev hmem hs => idealPollTrace_sleep_interval (2 : ℚ) m 0 ev hmem hs
  · intro g hg fuel
    exact pollLoopTrace_no_terminal TrainingRec.status g (30 : Int) hg fuel 0
  · intro g hg fuel
    exact pollLoopTrace_no_terminal PredRec.status g (2 : ℚ) hg fuel 0

/-- Witness for C5: a job that is `processing` once and then `succeeded`,
polled with three units of fuel, returns the second fetched record after
one intermediate sleep. -/
theorem poll_until_terminal_spec_witness :
    ((1 : Nat) < 3
      ∧ isTerminal ((fun j => if j = 0 then (⟨some "processing", none⟩ : TrainingRec)
          else ⟨some "succeeded", some "v123"⟩) 1).status = true
      ∧ (∀ j, j < 1 → isTerminal ((fun j => if j = 0 then (⟨some "processing", none⟩ : TrainingRec)
          else ⟨some "succeeded", some "v123"⟩) j).status = false))
    ∧ pollTraining
        (fun j => if j = 0 then ⟨some "processing", none⟩
          else ⟨some "succeeded", some "v123"⟩) 3 30
        = (idealPollTrace (30 : Int) 0 1, some ⟨some "succeeded", some "v123"⟩) := by
  refine ⟨⟨by decide, by decide, by decide⟩, ?_⟩
  have h := poll_until_terminal_spec
    (fun j => if j = 0 then ⟨some "processing", none⟩
      else ⟨some "succeeded", some "v123"⟩)
    (fun j => if j = 0 then ⟨"p1", some "processing"⟩
      else ⟨"p1", some "succeeded"⟩) 1 3 3
    (by decide) (by decide) (by decide) (by decide) (by decide) (by decide)
  exact h.1

/-! ## Lemmas on the `run_inference` poll phase -/

/-- When the error-aware poll loop returns a record, that record is the
first fetched one with a terminal status: every earlier fetch checked out
fine but was non-terminal. -/
theorem pollPredictionE_ok (fetch : Nat → HttpOutcome PredRec) :
    ∀ (fuel k : Nat) (p : PredRec) (n : Nat),
      pollPredictionE fetch k fuel = some (.ok p, n) →
      k < n ∧ check (fetch (n - 1)) = .ok p ∧ isTerminal p.status = true ∧
        ∀ j, k ≤ j → j < n - 1 →
          ∃ q, check (fetch j) = .ok q ∧ isTerminal q.status = false := by
  intro fuel
  induction fuel with
  | zero => intro k p n h; simp [pollPredictionE] at h
  | succ f ih =>
      intro k p n h
      rw [pollPredictionE] at h
      cases hc : check (fetch k) with
      | error e => rw [hc] at h; simp at h
      | ok q =>
          rw [hc] at h
          by_cases ht : isTerminal q.status = true
          · simp only [ht, if_true] at h
            obtain ⟨hpq, hn⟩ := by simpa using h
            subst hpq
            refine ⟨by omega, ?_, ht, ?_⟩
            · rw [show n - 1 = k from by omega]; exact hc
            · intro j hj hj'; omega
          · have ht' : isTerminal q.status = false := by simpa using ht
            simp only [ht', if_false, Bool.false_eq_true] at h
            obtain ⟨hlt, hlast, hterm, hmid⟩ := ih (k + 1) p n h
            refine ⟨by omega, hlast, hterm, ?_⟩
            intro j hj hj'
            rcases Nat.eq_or_lt_of_le hj with hjk | hjk
            · exact ⟨q, hjk ▸ hc, ht'⟩
            · exact hmid j hjk hj'

/-! ## Lemmas on the tenacity retry loop -/

/-- A body that returns a record ends the retry loop at the current
attempt. -/
theorem retryAttempts_ok (env : InfEnv) (fuel a r : Nat) (p : PredRec) (n : Nat)
    (h : runInferenceBody (env.submit a) (env.fetch a) fuel = some (.ok p, n)) :
    retryAttempts env fuel a r = some (.ok p, a, n) := by
  rw [retryAttempts, h]

/-- A body that raises `ReplicateError` ends the retry loop at the current
attempt: application-level failures are never retried. -/
theorem retryAttempts_appErr (env : InfEnv) (fuel a r : Nat) (msg : String)
    (n : Nat)
    (h : runInferenceBody (env.submit a) (env.fetch a) fuel
      = some (.error (.replicateError msg), n)) :
    retryAttempts env fuel a r = some (.error (.replicateError msg), a, n) := by
  rw [retryAttempts, h]
  simp [isTransportErr]

/-- A body that raises `httpx.RequestError` with no retries left re-raises
it from the current attempt. -/
theorem retryAttempts_transport_last (env : InfEnv) (fuel a : Nat) (e n : Nat)
    (h : runInferenceBody (env.submit a) (env.fetch a) fuel
      = some (.error (.requestError e), n)) :
    retryAttempts env fuel a 0 = some (.error (.requestError e), a, n) := by
  rw [retryAttempts, h]
  simp [isTransportErr]

/-- A body that raises `httpx.RequestError` with retries left moves the
loop to the next attempt. -/
theorem retryAttempts_transport_step (env : InfEnv) (fuel a r : Nat) (e n : Nat)
    (h : runInferenceBody (env.submit a) (env.fetch a) fuel
      = some (.error (.requestError e), n)) :
    retryAttempts env fuel a (r + 1) = retryAttempts env fuel (a + 1) r := by
  rw [retryAttempts, h]
  simp [isTransportErr]

/-- The attempt that produced the final outcome lies between the starting
attempt and the starting attempt plus the retries available. -/
theorem retryAttempts_bounds (env : InfEnv) (fuel : Nat) :
    ∀ (r a : Nat) (res : Except PyErr PredRec) (a' n : Nat),
      retryAttempts env fuel a r = some (res, a', n) → a ≤ a' ∧ a' ≤ a + r := by
  intro r
  induction r with
  | zero =>
      intro a res a' n h
      rw [retryAttempts] at h
      cases hb : runInferenceBody (env.submit a) (env.fetch a) fuel with
      | none => rw [hb] at h; simp at h
      | some v =>
          obtain ⟨w, n0⟩ := v
          rw [hb] at h
          cases w with
          | ok p => simp at h; omega
          | error e =>
              cases e with
              | requestError k => simp [isTransportErr] at h; omega
              | replicateError m => simp [isTransportErr] at h; omega
  | succ r ih =>
      intro a res a' n h
      rw [retryAttempts] at h
      cases hb : runInferenceBody (env.submit a) (env.fetch a) fuel with
      | none => rw [hb] at h; simp at h
      | some v =>
          obtain ⟨w, n0⟩ := v
          rw [hb] at h
          cases w with
          | ok p => simp at h; omega
          | error e =>
              cases e with
              | requestError k =>
                  simp only [isTransportErr, if_true] at h
                  have := ih (a + 1) res a' n h
                  omega
              | replicateError m => simp [isTransportErr] at h; omega

/-- The final outcome of the retry loop is exactly the outcome of the body
at the attempt it reports. -/
theorem retryAttempts_final_body (env : InfEnv) (fuel : Nat) :
    ∀ (r a : Nat) (res : Except PyErr PredRec) (a' n : Nat),
      retryAttempts env fuel a r = some (res, a', n) →
      runInferenceBody (env.submit a') (env.fetch a') fuel = some (res, n) := by
  intro r
  induction r with
  | zero =>
      intro a res a' n h
      rw [retryAttempts] at h
      cases hb : runInferenceBody (env.submit a) (env.fetch a) fuel with
      | none => rw [hb] at h; simp at h
      | some v =>
          obtain ⟨w, n0⟩ := v
          rw [hb] at h
          cases w with
          | ok p =>
              simp at h
              obtain ⟨h1, h2, h3⟩ := h
              subst h1; subst h2; subst h3; exact hb
          | error e =>
              cases e with
              | requestError k =>
                  simp [isTransportErr] at h
                  obtain ⟨h1, h2, h3⟩ := h
                  subst h1; subst h2; subst h3; exact hb
              | replicateError m =>
                  simp [isTransportErr] at h
                  obtain ⟨h1, h2, h3⟩ := h
                  subst h1; subst h2; subst h3; exact hb
  | succ r ih =>
      intro a res a' n h
      rw [retryAttempts] at h
      cases hb : runInferenceBody (env.submit a) (env.fetch a) fuel with
      | none => rw [hb] at h; simp at h
      | some v =>
          obtain ⟨w, n0⟩ := v
          rw [hb] at h
          cases w with
          | ok p =>
              simp at h
              obtain ⟨h1, h2, h3⟩ := h
              subst h1; subst h2; subst h3; exact hb
          | error e =>
              cases e with
              | requestError k =>
                  simp only [isTransportErr, if_true] at h
                  exact ih (a + 1) res a' n h
              | replicateError m =>
                  simp [isTransportErr] at h
                  obtain ⟨h1, h2, h3⟩ := h
                  subst h1; subst h2; subst h3; exact hb

/-- Every attempt strictly before the final one ended in a transport
error: retries happen only on `httpx.RequestError`. -/
theorem retryAttempts_prev_transport (env : InfEnv) (fuel : Nat) :
    ∀ (r a : Nat) (res : Except PyErr PredRec) (a' n : Nat),
      retryAttempts env fuel a r = some (res, a', n) →
      ∀ j, a ≤ j → j < a' →
        ∃ e m, runInferenceBody (env.submit j) (env.fetch j) fuel
          = some (.error (.requestError e), m) := by
  intro r
  induction r with
  | zero =>
      intro a res a' n h j hj hj'
      have := retryAttempts_bounds env fuel 0 a res a' n h
      omega
  | succ r ih =>
      intro a res a' n h j hj hj'
      rw [retryAttempts] at h
      cases hb : runInferenceBody (env.submit a) (env.fetch a) fuel with
      | none => rw [hb] at h; simp at h
      | some v =>
          obtain ⟨w, n0⟩ := v
          rw [hb] at h
          cases w with
          | ok p => simp at h; omega
          | error e =>
              cases e with
              | requestError k =>
                  simp only [isTransportErr, if_true] at h
                  rcases Nat.eq_or_lt_of_le hj with hja | hja
                  · exact ⟨k, n0, hja ▸ hb⟩
                  · exact ih (a + 1) res a' n h j hja hj'
              | replicateError m => simp [isTransportErr] at h; omega

/-- Body outcome when the submission request itself transport-fails. -/
theorem runInferenceBody_submit_transport (s : HttpOutcome PredRec)
    (fetch : Nat → HttpOutcome PredRec) (fuel e : Nat)
    (h : s = .transportErr e) :
    runInferenceBody s fetch fuel = some (.error (.requestError e), 0) := by
  subst h; rfl

/-- Body outcome when the server answers the submission with a status code
of 400 or more: `_check` raises `ReplicateError` and no poll happens. -/
theorem runInferenceBody_submit_rejected (s : HttpOutcome PredRec)
    (fetch : Nat → HttpOutcome PredRec) (fuel code : Nat) (text : String)
    (body : PredRec) (h : s = .response code text body) (hge : 400 ≤ code) :
    runInferenceBody s fetch fuel
      = some (.error (.replicateError (checkMsg code text)), 0) := by
  subst h
  simp [runInferenceBody, check, hge]

/-- Body outcome when the submission response is already terminal: it is
returned with zero poll fetches. -/
theorem runInferenceBody_ok_terminal (s : HttpOutcome PredRec)
    (fetch : Nat → HttpOutcome PredRec) (fuel : Nat) (d : PredRec)
    (h : check s = .ok d) (ht : isTerminal d.status = true) :
    runInferenceBody s fetch fuel = some (.ok d, 0) := by
  simp [runInferenceBody, h, ht]

/-- Body outcome when the submission response is not terminal: the poll
loop decides the result. -/
theorem runInferenceBody_ok_poll (s : HttpOutcome PredRec)
    (fetch : Nat → HttpOutcome PredRec) (fuel : Nat) (d : PredRec)
    (h : check s = .ok d) (ht : isTerminal d.status = false) :
    runInferenceBody s fetch fuel = pollPredictionE fetch 0 fuel := by
  simp [runInferenceBody, h, ht]

/-- C1: `run_inference` makes at most 3 attempts; a server response with
status code 400 or more raises `ReplicateError` immediately on the first
attempt without any retry; three transport-failed attempts re-raise the
underlying `httpx.RequestError` (`reraise=True`); two transport failures
followed by a successful body succeed on the third attempt; and every
attempt before the final one ended in a transport error, so a retry is
triggered only by `httpx.RequestError`. -/
theorem run_inference_retry_spec (env : InfEnv) (fuel : Nat) :
    (∀ (res : Except PyErr PredRec) (a n : Nat),
        runInference env fuel = some (res, a, n) → 1 ≤ a ∧ a ≤ 3)
    ∧ (∀ (code : Nat) (text : String) (body : PredRec),
        env.submit 1 = .response code text body → 400 ≤ code →
        runInference env fuel
          = some (.error (.replicateError (checkMsg code text)), 1, 0))
    ∧ (∀ e1 e2 e3 : Nat, env.submit 1 = .transportErr e1 →
        env.submit 2 = .transportErr e2 → env.submit 3 = .transportErr e3 →
        runInference env fuel = some (.error (.requestError e3), 3, 0))
    ∧ (∀ (e1 e2 : Nat) (p : PredRec) (n : Nat),
        env.submit 1 = .transportErr e1 → env.submit 2 = .transportErr e2 →
        runInferenceBody (env.submit 3) (env.fetch 3) fuel = some (.ok p, n) →
        runInference env fuel = some (.ok p, 3, n))
    ∧ (∀ (res : Except PyErr PredRec) (a n : Nat),
        runInference env fuel = some (res, a, n) →
        ∀ j, 1 ≤ j → j < a →
          ∃ e m, runInferenceBody (env.submit j) (env.fetch j) fuel
            = some (.error (.requestError e), m)) := by
  refine ⟨?_, ?_, ?_, ?_, ?_⟩
  · intro res a n h
    have := retryAttempts_bounds env fuel 2 1 res a n h
    omega
  · intro code text body h hge
    have hb := runInferenceBody_submit_rejected (env.submit 1) (env.fetch 1)
      fuel code text body h hge
    exact retryAttempts_appErr env fuel 1 2 (checkMsg code text) 0 hb
  · intro e1 e2 e3 h1 h2 h3
    have hb1 := runInferenceBody_submit_transport (env.submit 1) (env.fetch 1)
      fuel e1 h1
    have hb2 := runInferenceBody_submit_transport (env.submit 2) (env.fetch 2)
      fuel e2 h2
    have hb3 := runInferenceBody_submit_transport (env.submit 3) (env.fetch 3)
      fuel e3 h3
    unfold runInference
    rw [retryAttempts_transport_step env fuel 1 1 e1 0 hb1,
      retryAttempts_transport_step env fuel 2 0 e2 0 hb2]
    exact retryAttempts_transport_last env fuel 3 e3 0 hb3
  · intro e1 e2 p n h1 h2 hb3
    have hb1 := runInferenceBody_submit_transport (env.submit 1) (env.fetch 1)
      fuel e1 h1
    have hb2 := runInferenceBody_submit_transport (env.submit 2) (env.fetch 2)
      fuel e2 h2
    unfold runInference
    rw [retryAttempts_transport_step env fuel 1 1 e1 0 hb1,
      retryAttempts_transport_step env fuel 2 0 e2 0 hb2]
    exact retryAttempts_ok env fuel 3 0 p n hb3
  · intro res a n h
    exact retryAttempts_prev_transport env fuel 2 1 res a n h

/-- Witness for C1: a submission rejected with HTTP 422 surfaces as an
immediate `ReplicateError` on the first attempt, with no retry. -/
theorem run_inference_retry_spec_witness :
    ((InfEnv.mk (fun _ => .response 422 "bad" ⟨"p1", some "starting"⟩)
        (fun _ _ => .transportErr 0)).submit 1
      = .response 422 "bad" ⟨"p1", some "starting"⟩ ∧ (400 : Nat) ≤ 422)
    ∧ runInference
        (InfEnv.mk (fun _ => .response 422 "bad" ⟨"p1", some "starting"⟩)
          (fun _ _ => .transportErr 0)) 1
      = some (.error (.replicateError (checkMsg 422 "bad")), 1, 0) := by
  refine ⟨⟨rfl, by decide⟩, ?_⟩
  exact (run_inference_retry_spec
    (InfEnv.mk (fun _ => .response 422 "bad" ⟨"p1", some "starting"⟩)
      (fun _ _ => .transportErr 0)) 1).2.1 422 "bad" ⟨"p1", some "starting"⟩
    rfl (by decide)

/-- C2: when the immediate submission response is already terminal,
`run_inference` returns it with zero poll fetches; when it is not, the
returned record is the first fetched one whose status is terminal, after
at least one fetch. -/
theorem run_inference_polling_spec (env : InfEnv) (fuel : Nat) :
    (∀ d : PredRec, check (env.submit 1) = .ok d → isTerminal d.status = true →
        runInference env fuel = some (.ok d, 1, 0))
    ∧ (∀ (a : Nat) (d p : PredRec) (n : Nat),
        check (env.submit a) = .ok d → isTerminal d.status = false →
        runInference env fuel = some (.ok p, a, n) →
        1 ≤ n ∧ check (env.fetch a (n - 1)) = .ok p ∧
          isTerminal p.status = true ∧
          ∀ k, k < n - 1 → ∃ q, check (env.fetch a k) = .ok q ∧
            isTerminal q.status = false) := by
  constructor
  · intro d h ht
    have hb := runInferenceBody_ok_terminal (env.submit 1) (env.fetch 1)
      fuel d h ht
    exact retryAttempts_ok env fuel 1 2 d 0 hb
  · intro a d p n h ht hrun
    have hb := retryAttempts_final_body env fuel 2 1 (.ok p) a n hrun
    rw [runInferenceBody_ok_poll (env.submit a) (env.fetch a) fuel d h ht] at hb
    obtain ⟨hlt, hlast, hterm, hmid⟩ :=
      pollPredictionE_ok (env.fetch a) fuel 0 p n hb
    exact ⟨hlt, hlast, hterm, fun k hk => hmid k (Nat.zero_le k) hk⟩

/-- Witness for C2: a submission whose immediate status is `succeeded`
returns at once with zero poll fetches. -/
theorem run_inference_polling_spec_witness :
    (check ((InfEnv.mk (fun _ => .response 201 "ok" ⟨"p1", some "succeeded"⟩)
        (fun _ _ => .transportErr 0)).submit 1)
      = .ok ⟨"p1", some "succeeded"⟩
      ∧ isTerminal (PredRec.mk "p1" (some "succeeded")).status = true)
    ∧ runInference
        (InfEnv.mk (fun _ => .response 201 "ok" ⟨"p1", some "succeeded"⟩)
          (fun _ _ => .transportErr 0)) 1
      = some (.ok ⟨"p1", some "succeeded"⟩, 1, 0) := by
  refine ⟨⟨by decide, by decide⟩, ?_⟩
  exact (run_inference_polling_spec
    (InfEnv.mk (fun _ => .response 201 "ok" ⟨"p1", some "succeeded"⟩)
      (fun _ _ => .transportErr 0)) 1).1 ⟨"p1", some "succeeded"⟩
    (by decide) (by decide)

/-- Environment in which every submission is accepted with the
non-terminal status `starting` and every status fetch raises
`httpx.RequestError`. -/
def pollTransportFailEnv : InfEnv where
  submit := fun _ => .response 201 "created" ⟨"p1", some "starting"⟩
  fetch := fun _ _ => .transportErr 7

/-- C4 counterexample: the claim says an error raised by a status fetch
during the poll loop propagates immediately and is never answered by
re-submitting the job — i.e. in this environment the call would end after
one submission.  In fact the tenacity decorator wraps the polling phase
too, so the transport error raised by the first status fetch causes two
further submissions: the call ends at attempt 3, not attempt 1. -/
theorem run_inference_retry_scope_counterexample :
    runInference pollTransportFailEnv 5
      = some (.error (.requestError 7), 3, 1)
    ∧ runInference pollTransportFailEnv 5
      ≠ some (.error (.requestError 7), 1, 1) := by
  constructor
  · decide
  · decide

/-- C4 amended: the retry wrapper spans the entire `run_inference` body,
polling included.  A `ReplicateError` raised by a status fetch propagates
immediately with a single submission (it is not a retried exception type),
but an `httpx.RequestError` raised by a status fetch makes the loop
re-enter the whole body at attempt 2 — re-submitting the job. -/
theorem run_inference_retry_scope (env : InfEnv) (fuel : Nat) :
    (∀ (d : PredRec) (msg : String) (n : Nat),
        check (env.submit 1) = .ok d → isTerminal d.status = false →
        pollPredictionE (env.fetch 1) 0 fuel
          = some (.error (.replicateError msg), n) →
        runInference env fuel = some (.error (.replicateError msg), 1, n))
    ∧ (∀ (d : PredRec) (e n : Nat),
        check (env.submit 1) = .ok d → isTerminal d.status = false →
        pollPredictionE (env.fetch 1) 0 fuel
          = some (.error (.requestError e), n) →
        runInference env fuel = retryAttempts env fuel 2 1) := by
  constructor
  · intro d msg n h ht hp
    have hb := runInferenceBody_ok_poll (env.submit 1) (env.fetch 1) fuel d h ht
    rw [hp] at hb
    exact retryAttempts_appErr env fuel 1 2 msg n hb
  · intro d e n h ht hp
    have hb := runInferenceBody_ok_poll (env.submit 1) (env.fetch 1) fuel d h ht
    rw [hp] at hb
    exact retryAttempts_transport_step env fuel 1 1 e n hb

/-- Witness for the amended C4: a status fetch answered with HTTP 500
aborts the poll at once — one submission, one poll fetch, a
`ReplicateError`. -/
theorem run_inference_retry_scope_witness :
    (check ((InfEnv.mk (fun _ => .response 201 "ok" ⟨"p1", some "starting"⟩)
        (fun _ _ => .response 500 "oops" ⟨"p1", none⟩)).submit 1)
      = .ok ⟨"p1", some "starting"⟩
      ∧ isTerminal (PredRec.mk "p1" (some "starting")).status = false
      ∧ pollPredictionE ((InfEnv.mk
          (fun _ => .response 201 "ok" ⟨"p1", some "starting"⟩)
          (fun _ _ => .response 500 "oops" ⟨"p1", none⟩)).fetch 1) 0 4
        = some (.error (.replicateError (checkMsg 500 "oops")), 1))
    ∧ runInference
        (InfEnv.mk (fun _ => .response 201 "ok" ⟨"p1", some "starting"⟩)
          (fun _ _ => .response 500 "oops" ⟨"p1", none⟩)) 4
      = some (.error (.replicateError (checkMsg 500 "oops")), 1, 1) := by
  refine ⟨⟨by decide, by decide, by decide⟩, ?_⟩
  exact (run_inference_retry_scope
    (InfEnv.mk (fun _ => .response 201 "ok" ⟨"p1", some "starting"⟩)
      (fun _ _ => .response 500 "oops" ⟨"p1", none⟩)) 4).1
    ⟨"p1", some "starting"⟩ (checkMsg 500 "oops") 1
    (by decide) (by decide) (by decide)

/-- C3: for every combination of present and absent optional arguments,
the serialized input payload holds `prompt` and exactly the present
fields with their values; absent (`None`) fields have no key at all, and
no key beyond the six named ones ever appears. -/
theorem inference_payload_omits_null_fields (prompt : String)
    (np ar : Option String) (no sd : Option Int) (g : Option ℚ) :
    (inferenceInputPayload prompt (optVal .vstr np) (optVal .vint no)
        (optVal .vnum g) (optVal .vint sd) (optVal .vstr ar)).lookup "prompt"
      = some (.vstr prompt)
    ∧ (inferenceInputPayload prompt (optVal .vstr np) (optVal .vint no)
        (optVal .vnum g) (optVal .vint sd) (optVal .vstr ar)).lookup
        "negative_prompt" = np.map .vstr
    ∧ (inferenceInputPayload prompt (optVal .vstr np) (optVal .vint no)
        (optVal .vnum g) (optVal .vint sd) (optVal .vstr ar)).lookup
        "num_outputs" = no.map .vint
    ∧ (inferenceInputPayload prompt (optVal .vstr np) (optVal .vint no)
        (optVal .vnum g) (optVal .vint sd) (optVal .vstr ar)).lookup
        "guidance" = g.map .vnum
    ∧ (inferenceInputPayload prompt (optVal .vstr np) (optVal .vint no)
        (optVal .vnum g) (optVal .vint sd) (optVal .vstr ar)).lookup
        "seed" = sd.map .vint
    ∧ (inferenceInputPayload prompt (optVal .vstr np) (optVal .vint no)
        (optVal .vnum g) (optVal .vint sd) (optVal .vstr ar)).lookup
        "aspect_ratio" = ar.map .vstr
    ∧ ∀ kv ∈ inferenceInputPayload prompt (optVal .vstr np) (optVal .vint no)
        (optVal .vnum g) (optVal .vint sd) (optVal .vstr ar),
        kv.1 ∈ ["prompt", "negative_prompt", "num_outputs", "guidance",
          "seed", "aspect_ratio"] := by
  rcases np with _ | x <;> rcases no with _ | y <;> rcases g with _ | z <;>
    rcases sd with _ | w <;> rcases ar with _ | u <;>
    simp [inferenceInputPayload, inferenceInputRaw, optVal, PyVal.isNone,
      List.lookup]

/-- Witness for C3: a call with `negative_prompt` and `seed` absent emits
no key for either of them, while the present `num_outputs` keeps its
value. -/
theorem inference_payload_omits_null_fields_witness :
    (inferenceInputPayload "a cat" (optVal .vstr none) (optVal .vint (some 1))
        (optVal .vnum (some (7 / 2))) (optVal .vint none)
        (optVal .vstr (some "1:1"))).lookup "negative_prompt" = none
    ∧ (inferenceInputPayload "a cat" (optVal .vstr none)
        (optVal .vint (some 1)) (optVal .vnum (some (7 / 2)))
        (optVal .vint none)
        (optVal .vstr (some "1:1"))).lookup "num_outputs"
      = some (.vint 1) := by
  have h := inference_payload_omits_null_fields "a cat" none (some "1:1")
    (some 1) none (some (7 / 2))
  exact ⟨h.2.1, h.2.2.1⟩

/-- C6: `upload_dataset` raises `FileNotFoundError` with zero network
requests when the archive path does not exist; a response with status 400
or more raises `ReplicateError` carrying the status code and body after
exactly one request, with no retry; a successful response returns its
`upload_url` after exactly one request. -/
theorem upload_dataset_spec (post : HttpOutcome FilesBody) :
    uploadDataset false post = (.fileNotFoundErr, 0)
    ∧ (∀ (code : Nat) (text : String) (body : FilesBody),
        post = .response code text body → 400 ≤ code →
        uploadDataset true post
          = (.httpErr (.replicateError (checkMsg code text)), 1))
    ∧ (∀ (code : Nat) (text : String) (body : FilesBody),
        post = .response code text body → code < 400 →
        uploadDataset true post = (.ok body.upload_url, 1)) := by
  refine ⟨rfl, ?_, ?_⟩
  · intro code text body h hge
    subst h
    simp [uploadDataset, check, hge]
  · intro code text body h hlt
    subst h
    simp [uploadDataset, check, Nat.not_le.mpr hlt]

/-- Witness for C6: a mock server answering HTTP 500 produces a
`ReplicateError` carrying `500` and the body after exactly one request. -/
theorem upload_dataset_spec_witness :
    ((HttpOutcome.response 500 "boom" (FilesBody.mk "u1") :
        HttpOutcome FilesBody)
      = .response 500 "boom" ⟨"u1"⟩ ∧ (400 : Nat) ≤ 500)
    ∧ uploadDataset true (.response 500 "boom" ⟨"u1"⟩)
      = (.httpErr (.replicateError (checkMsg 500 "boom")), 1) := by
  refine ⟨⟨rfl, by decide⟩, ?_⟩
  exact (upload_dataset_spec (.response 500 "boom" ⟨"u1"⟩)).2.1
    500 "boom" ⟨"u1"⟩ rfl (by decide)

/-- C9: given the polled terminal training record (with its
`output.version` field readable), the CLI writes the output JSON
`{"lora_version": version}` exactly when the status is `succeeded`; on
any other terminal status it raises `RuntimeError` and writes nothing. -/
theorem train_cli_output_spec (final : TrainingRec) (v : String)
    (hv : final.outputVersion = some v)
    (ht : isTerminal final.status = true) :
    (trainFinalize final = .ok [("lora_version", v)] ↔
      final.status = some "succeeded")
    ∧ (final.status ≠ some "succeeded" →
        trainFinalize final = .error (.trainingFailed final)) := by
  cases hs : final.status with
  | none => rw [hs] at ht; simp [isTerminal] at ht
  | some st =>
      by_cases hsucc : st = "succeeded"
      · subst hsucc
        have hfin : trainFinalize final = .ok [("lora_version", v)] := by
          simp [trainFinalize, hs, hv]
        exact ⟨⟨fun _ => rfl, fun _ => hfin⟩, fun hne => absurd rfl hne⟩
      · have hfin : trainFinalize final = .error (.trainingFailed final) := by
          simp [trainFinalize, hs, hsucc]
        refine ⟨⟨fun hw => ?_, fun heq => ?_⟩, fun _ => hfin⟩
        · rw [hfin] at hw
          simp at hw
        · simp only [Option.some_inj] at heq
          exact absurd heq hsucc

/-- Witness for C9: a succeeded record with `output.version = "v123"`
yields the written object `{"lora_version": "v123"}`. -/
theorem train_cli_output_spec_witness :
    ((TrainingRec.mk (some "succeeded") (some "v123")).outputVersion
        = some "v123"
      ∧ isTerminal (TrainingRec.mk (some "succeeded")
          (some "v123")).status = true)
    ∧ trainFinalize ⟨some "succeeded", some "v123"⟩
      = .ok [("lora_version", "v123")] := by
  refine ⟨⟨rfl, by decide⟩, ?_⟩
  exact (train_cli_output_spec ⟨some "succeeded", some "v123"⟩ "v123"
    rfl (by decide)).1.mpr rfl

/-- C10: a Slack message event whose `bot_id` or `subtype` is truthy is
dropped by `handle_message` with no reply posted and no inference job
spawned. -/
theorem handle_message_skips_bot_events (botUserId : String) (e : MsgEvent)
    (h : truthyStr e.bot_id = true ∨ truthyStr e.subtype = true) :
    handleMessage botUserId e = [] := by
  unfold handleMessage
  rcases h with h | h <;> simp [h]

/-- Witness for C10: a message carrying `bot_id = "B999"` produces no
action at all. -/
theorem handle_message_skips_bot_events_witness :
    (truthyStr (MsgEvent.mk (some "B999") none (some "hello") none
        none).bot_id = true
      ∨ truthyStr (MsgEvent.mk (some "B999") none (some "hello") none
        none).subtype = true)
    ∧ handleMessage "U123" ⟨some "B999", none, some "hello", none, none⟩
      = [] := by
  refine ⟨Or.inl (by decide), ?_⟩
  exact handle_message_skips_bot_events "U123"
    ⟨some "B999", none, some "hello", none, none⟩ (Or.inl (by decide))

/-! ## Zip-archive lemmas -/

/-- Replacing the separator leaves a separator-free component string
unchanged. -/
theorem sepToSlash_sepFree (sep : Char) :
    ∀ (c : List Char), sep ∉ c → sepToSlash sep c = c := by
  intro c
  induction c with
  | nil => intro _; rfl
  | cons x xs ih =>
      intro h
      have hx : ¬x = sep := by
        intro hx
        exact h (by rw [hx]; exact List.mem_cons_self sep xs)
      have hxs : sep ∉ xs := fun hm => h (List.mem_cons_of_mem x hm)
      have hmap := ih hxs
      simp only [sepToSlash] at hmap
      simp [sepToSlash, hx, hmap]

/-- On separator-free components, join-with-sep followed by the zipfile
separator replacement is exactly join-with-forward-slash. -/
theorem arcname_sepFree (sep : Char) :
    ∀ rel : List (List Char), (∀ comp ∈ rel, sep ∉ comp) →
      arcname sep rel = joinChars '/' rel := by
  intro rel
  induction rel with
  | nil => intro _; rfl
  | cons c cs ih =>
      intro h
      cases cs with
      | nil =>
          show sepToSlash sep (joinChars sep [c]) = joinChars '/' [c]
          exact sepToSlash_sepFree sep c (h c (List.mem_cons_self c []))
      | cons d ds =>
          have hc : sep ∉ c := h c (List.mem_cons_self _ _)
          have hrest : ∀ comp ∈ d :: ds, sep ∉ comp :=
            fun comp hm => h comp (List.mem_cons_of_mem _ hm)
          have hihs := ih hrest
          calc arcname sep (c :: d :: ds)
              = sepToSlash sep c ++ '/' :: arcname sep (d :: ds) := by
                show List.map _ (c ++ sep :: joinChars sep (d :: ds)) = _
                rw [List.map_append]
                simp [sepToSlash, arcname]
            _ = c ++ '/' :: joinChars '/' (d :: ds) := by
                rw [sepToSlash_sepFree sep c hc, hihs]
            _ = joinChars '/' (c :: d :: ds) := rfl

/-- Every relative file path the relation accepts is produced by the
directory walk. -/
theorem IsFileAt.mem_rglobEntries {es : FsEntries} {rel : List (List Char)}
    (h : IsFileAt es rel) : rel ∈ rglobEntries es := by
  induction h with
  | here => exact List.mem_cons_self _ _
  | inSubdir hsub ih => exact List.mem_append_left _ (List.mem_map_of_mem _ ih)
  | inRest hr ih =>
      rename_i nm t rest rel'
      cases t with
      | file => exact List.mem_cons_of_mem _ ih
      | dir es2 => exact List.mem_append_right _ ih

/-- Every relative path produced by the directory walk is a regular file
of the tree (strong induction on the size of the entry list). -/
theorem mem_rglobEntries_isFileAt :
    ∀ (n : Nat) (es : FsEntries), sizeOf es ≤ n →
      ∀ rel, rel ∈ rglobEntries es → IsFileAt es rel := by
  intro n
  induction n with
  | zero =>
      intro es hsz rel hmem
      cases es with
      | nil => simp [rglobEntries] at hmem
      | cons nm t rest => simp [FsEntries.cons.sizeOf_spec] at hsz
  | succ n ih =>
      intro es hsz rel hmem
      cases es with
      | nil => simp [rglobEntries] at hmem
      | cons nm t rest =>
          simp only [FsEntries.cons.sizeOf_spec] at hsz
          cases t with
          | file =>
              simp only [rglobEntries, List.mem_cons] at hmem
              rcases hmem with h | h
              · subst h; exact .here
              · exact .inRest (ih rest (by omega) rel h)
          | dir es2 =>
              simp only [FsTree.dir.sizeOf_spec] at hsz
              simp only [rglobEntries, List.mem_append] at hmem
              rcases hmem with h | h
              · obtain ⟨r, hr, hrel⟩ := List.mem_map.mp h
                rw [← hrel]
                exact .inSubdir (ih es2 (by omega) r hr)
              · exact .inRest (ih rest (by omega) rel h)

/-- The directory walk computes exactly the regular files of the tree. -/
theorem mem_rglobEntries_iff (es : FsEntries) (rel : List (List Char)) :
    rel ∈ rglobEntries es ↔ IsFileAt es rel :=
  ⟨fun h => mem_rglobEntries_isFileAt (sizeOf es) es (Nat.le_refl _) rel h,
   fun h => h.mem_rglobEntries⟩

/-- C7: on a directory whose file-path components are free of the host
separator, the archive produced by `zip_dataset` is written and its entry
names are exactly the relative paths of the regular files, joined with
forward slashes whatever the host separator was; directories contribute
no entries (only `IsFileAt` paths appear). -/
theorem zip_dataset_entry_names (es : FsEntries) (sep : Char)
    (hsep : ∀ rel ∈ rglobEntries es, ∀ comp ∈ rel, sep ∉ comp) :
    zipDataset (some (.dir es)) sep
      = (.ok ((rglobEntries es).map (joinChars '/')), true)
    ∧ ∀ s : List Char,
        s ∈ (rglobEntries es).map (joinChars '/') ↔
          ∃ rel, IsFileAt es rel ∧ s = joinChars '/' rel := by
  constructor
  · show (ZipRes.ok ((rglobEntries es).map (arcname sep)), true) = _
    have hmap : (rglobEntries es).map (arcname sep)
        = (rglobEntries es).map (joinChars '/') :=
      List.map_congr_left (fun rel hrel => arcname_sepFree sep rel (hsep rel hrel))
    rw [hmap]
  · intro s
    constructor
    · intro h
      obtain ⟨rel, hrel, hs⟩ := List.mem_map.mp h
      exact ⟨rel, (mem_rglobEntries_iff es rel).mp hrel, hs.symm⟩
    · rintro ⟨rel, hfile, hs⟩
      rw [hs]
      exact List.mem_map_of_mem _ ((mem_rglobEntries_iff es rel).mpr hfile)

/-- Witness for C7: the repository test tree (`image1.jpg` plus
`nested/image2.jpg`) zipped on a host whose separator is a backslash gets
entries `image1.jpg` and `nested/image2.jpg`. -/
theorem zip_dataset_entry_names_witness :
    (∀ rel ∈ rglobEntries (.cons "image1.jpg".toList .file
        (.cons "nested".toList
          (.dir (.cons "image2.jpg".toList .file .nil)) .nil)),
      ∀ comp ∈ rel, '\\' ∉ comp)
    ∧ zipDataset (some (.dir (.cons "image1.jpg".toList .file
        (.cons "nested".toList
          (.dir (.cons "image2.jpg".toList .file .nil)) .nil)))) '\\'
      = (.ok ["image1.jpg".toList, "nested/image2.jpg".toList], true) := by
  refine ⟨by decide, ?_⟩
  have h := (zip_dataset_entry_names (.cons "image1.jpg".toList .file
    (.cons "nested".toList (.dir (.cons "image2.jpg".toList .file .nil)) .nil))
    '\\' (by decide)).1
  rw [h]
  decide

/-- C8: `zip_dataset` on a missing or non-directory source path raises
`NotADirectoryError` before any I/O on the destination: the archive is
neither created nor modified. -/
theorem zip_dataset_rejects_non_directory (src : Option FsTree) (sep : Char)
    (h : ∀ es, src ≠ some (.dir es)) :
    zipDataset src sep = (.notADirectoryErr, false) := by
  cases src with
  | none => rfl
  | some t =>
      cases t with
      | file => rfl
      | dir es => exact absurd rfl (h es)

/-- Witness for C8: a non-existent source path yields
`NotADirectoryError` and an untouched destination. -/
theorem zip_dataset_rejects_non_directory_witness :
    (∀ es, (none : Option FsTree) ≠ some (.dir es))
    ∧ zipDataset none '/' = (.notADirectoryErr, false) := by
  refine ⟨fun es => by simp, ?_⟩
  exact zip_dataset_rejects_non_directory none '/' (fun es => by simp)

end FluxBot
